import Mathlib

/-!
# LibroBuddy order/stock workflow — shallow embedding

This file embeds the transactional core of the LibroBuddy bookstore server
(the main Express/SQLite backend): order placement (`POST /api/orders`),
order status transition (`PUT /api/orders/:id/status`), supplier receipt
(`PUT /api/supplier-orders/:id/status`), plus the satellite entry points
needed for frame properties (book CRUD, reviews, supplier-order creation,
mock payment processing).

Modelling conventions:

* SQLite tables become lists of rows; `REAL` money columns become `ℚ`,
  `INTEGER` columns become `Int` (so the schema invariants are real
  theorems, not baked into types).
* The schema constraints of `database/init.js` are enforced by the
  embedded SQL statements: `CHECK(stock_quantity >= 0)` on `books`,
  `CHECK(status IN (...))` on `orders` and `supplier_orders`,
  `CHECK(price >= 0)`, `CHECK(quantity > 0)` / `CHECK(price_at_purchase
  >= 0)` on `order_items`, and `PRAGMA foreign_keys = ON`.
  A statement that would violate a constraint errors and changes nothing.
* The server drives sqlite through a single connection whose statements
  execute one at a time in the order they were scheduled, while the
  JavaScript callbacks run on the event loop in statement-completion
  order.  The route handlers are nested-callback pipelines; the embedding
  therefore fixes the deterministic execution order implied by that
  queue.  In particular, in `POST /api/orders` the `items.forEach` loop
  schedules every per-line `SELECT` before any per-line `UPDATE` is
  scheduled, so every stock check reads the pre-call state, and a
  `ROLLBACK` issued by a failing line is queued before the stock
  `UPDATE`s of the lines whose callbacks run later — those updates then
  execute outside any transaction (autocommit) and persist.
* Users, tokens, timestamps, audit logging and the text columns that no
  claim mentions are elided; `book_id = 0` plays the role of the falsy
  (missing) book reference of the JSON payload.
-/

namespace LibroBuddy

/-- A row of the `books` table (`database/init.js`): `price REAL NOT NULL
CHECK(price >= 0)`, `stock_quantity INTEGER DEFAULT 0
CHECK(stock_quantity >= 0)`. -/
structure Book where
  id : Nat
  title : String
  price : ℚ
  stock_quantity : Int
  deriving Repr, DecidableEq

/-- A row of the `orders` table: `total_amount REAL NOT NULL
CHECK(total_amount >= 0)`, `status TEXT DEFAULT 'pending' CHECK(status IN
('pending','processing','shipped','delivered','cancelled'))`. -/
structure Order where
  id : Nat
  user_id : Nat
  employee_id : Option Nat
  total_amount : ℚ
  status : String
  deriving Repr, DecidableEq

/-- A row of the `order_items` table: `quantity INTEGER NOT NULL
CHECK(quantity > 0)`, `price_at_purchase REAL NOT NULL
CHECK(price_at_purchase >= 0)`. -/
structure OrderItem where
  order_id : Nat
  book_id : Nat
  quantity : Int
  price_at_purchase : ℚ
  deriving Repr, DecidableEq

/-- A row of the `supplier_orders` table: `quantity INTEGER NOT NULL`
(note: no positivity constraint), `status TEXT DEFAULT 'Pending'
CHECK(status IN ('Pending','Shipped','Received','Cancelled'))`. -/
structure SupplierOrder where
  id : Nat
  book_id : Nat
  quantity : Int
  status : String
  deriving Repr, DecidableEq

/-- A row of the `reviews` table (rating 1-5, `UNIQUE(book_id, user_id)`,
`book_id` cascade-deletes with the book). -/
structure Review where
  book_id : Nat
  user_id : Nat
  rating : Int
  deriving Repr, DecidableEq

/-- The database state: the tables the workflow touches, plus the rowid
counter that `AUTOINCREMENT` uses for new orders (`this.lastID`). -/
structure Db where
  books : List Book
  orders : List Order
  order_items : List OrderItem
  supplier_orders : List SupplierOrder
  reviews : List Review
  nextOrderId : Nat
  deriving Repr, DecidableEq

/-- SQL: `SELECT * FROM books WHERE id = ?` (first matching row). -/
def findBook (bs : List Book) (i : Nat) : Option Book :=
  bs.find? (fun b => b.id == i)

/-- SQL: `UPDATE books SET stock_quantity = stock_quantity + d WHERE id = i`
under `CHECK(stock_quantity >= 0)`: the statement errors (`none`) when an
affected row would go negative, otherwise it updates the affected rows
(possibly zero rows — that is still a success). -/
def updStock (bs : List Book) (i : Nat) (d : Int) : Option (List Book) :=
  if bs.any (fun b => b.id == i && decide (b.stock_quantity + d < 0)) then none
  else some (bs.map (fun b =>
    if b.id == i then { b with stock_quantity := b.stock_quantity + d } else b))

/-- The stock column of the first `books` row with the given id. -/
def stockOf (bs : List Book) (i : Nat) : Option Int :=
  (findBook bs i).map Book.stock_quantity

/-- The price column of the first `books` row with the given id (0 when
absent; only used on ids that were found). -/
def priceOf (bs : List Book) (i : Nat) : ℚ :=
  ((findBook bs i).map Book.price).getD 0

/-- One line of the JSON cart `{ book_id, quantity }` sent to
`POST /api/orders`; `book_id = 0` models a falsy/missing reference. -/
structure CartLine where
  book_id : Nat
  quantity : Int
  deriving Repr, DecidableEq

/-- Source: `if (!book_id || !quantity || quantity <= 0)` — the synchronous
per-line validation of `POST /api/orders`. -/
def lineInvalid (l : CartLine) : Bool :=
  l.book_id == 0 || l.quantity ≤ 0

/-- The observable outcome of `POST /api/orders`. -/
inductive PlaceResult where
  /-- HTTP 400 `Order must contain at least one item.` -/
  | emptyCart
  /-- HTTP 400 `Invalid item data.` -/
  | invalidItem
  /-- HTTP 404 `Book <id> not found.` -/
  | bookNotFound (book_id : Nat)
  /-- HTTP 400 `Insufficient stock for "<title>". Available: <n>` -/
  | insufficientStock (title : String) (available : Int)
  /-- HTTP 500 `Failed to update stock.` -/
  | stockUpdateFailed
  /-- HTTP 500 `Failed to create order.` -/
  | orderInsertFailed
  /-- HTTP 500 `Failed to create order items.` -/
  | itemInsertFailed
  /-- HTTP 201 with `{ orderId, totalAmount }`. -/
  | created (orderId : Nat) (totalAmount : ℚ)
  deriving Repr, DecidableEq

/-- Outcome of one line's `SELECT`-callback checks against the pre-call
books table. -/
inductive LineCheck where
  | missing
  | short (title : String) (available : Int)
  | passed
  deriving Repr, DecidableEq

/-- The `db.get('SELECT * FROM books WHERE id = ?')` callback of one cart
line: 404 when the book is absent, the insufficient-stock 400 when
`book.stock_quantity < quantity`. -/
def checkLine (bs : List Book) (l : CartLine) : LineCheck :=
  match findBook bs l.book_id with
  | none => .missing
  | some b =>
    if b.stock_quantity < l.quantity then .short b.title b.stock_quantity
    else .passed

/-- The first cart line whose `SELECT` callback fails, together with the
error it answers with and the lines whose callbacks run after it. -/
def firstCheckFailure (bs : List Book) : List CartLine → Option (PlaceResult × List CartLine)
  | [] => none
  | l :: ls =>
    match checkLine bs l with
    | .missing => some (.bookNotFound l.book_id, ls)
    | .short t a => some (.insufficientStock t a, ls)
    | .passed => firstCheckFailure bs ls

/-- Stock decrements that execute after a `ROLLBACK` already ended the
transaction: each runs in autocommit mode, a constraint failure skips
only that statement, the rest persist. -/
def autocommitDecrements (bs : List Book) (ls : List CartLine) : List Book :=
  ls.foldl (fun acc l =>
    match updStock acc l.book_id (-l.quantity) with
    | some acc2 => acc2
    | none => acc) bs

/-- The in-transaction stock decrements of a cart whose every line passed
its check, executed sequentially; `none` when some `UPDATE` hits the
`CHECK(stock_quantity >= 0)` constraint (the whole transaction is then
rolled back). -/
def txnDecrements (bs : List Book) : List CartLine → Option (List Book)
  | [] => some bs
  | l :: ls =>
    match updStock bs l.book_id (-l.quantity) with
    | none => none
    | some bs2 => txnDecrements bs2 ls

/-- Source: `totalAmount += book.price * quantity`, accumulated in line order
against the pre-call prices. -/
def orderTotal (bs : List Book) (ls : List CartLine) : ℚ :=
  ls.foldl (fun acc l => acc + priceOf bs l.book_id * (l.quantity : ℚ)) 0

/-- The `processedItems` array: one `order_items` row per line,
snapshotting the pre-call price as `price_at_purchase`. -/
def snapshotItems (bs : List Book) (oid : Nat) (ls : List CartLine) : List OrderItem :=
  ls.map (fun l =>
    { order_id := oid, book_id := l.book_id, quantity := l.quantity,
      price_at_purchase := priceOf bs l.book_id })

/-- Route `POST /api/orders` (order placement).  The nested-callback pipeline is
replayed in the deterministic statement order described in the header:

1. empty/invalid-shaped cart: 400 before `BEGIN`;
2. some line fails `(!book_id || !quantity || quantity <= 0)`: the first
   such line answers 400 and issues `ROLLBACK` synchronously, before any
   stock `UPDATE` is scheduled; every valid line that passes its stock
   check still runs its `UPDATE` afterwards, outside the transaction;
3. otherwise every line's `SELECT` reads the pre-call table; if some
   line's check fails it answers (404 or the insufficient-stock 400) and
   issues `ROLLBACK`; updates of earlier passing lines are rolled back,
   updates of later passing lines run after the `ROLLBACK` and persist;
4. otherwise the decrements run inside the transaction; a
   `CHECK(stock_quantity >= 0)` violation rolls everything back (500);
5. otherwise the order row (`status = 'pending'`, `employee_id` only for
   staff), then the item rows are inserted and the transaction commits. -/
def placeOrder (db : Db) (userId : Nat) (isStaff : Bool) (items : List CartLine) :
    PlaceResult × Db :=
  if items.isEmpty then (.emptyCart, db)
  else if items.any lineInvalid then
    let leaked := items.filter (fun l => !lineInvalid l && checkLine db.books l == .passed)
    (.invalidItem, { db with books := autocommitDecrements db.books leaked })
  else
    match firstCheckFailure db.books items with
    | some (e, rest) =>
      let leaked := rest.filter (fun l => checkLine db.books l == .passed)
      (e, { db with books := autocommitDecrements db.books leaked })
    | none =>
      match txnDecrements db.books items with
      | none => (.stockUpdateFailed, db)
      | some bs2 =>
        let total := orderTotal db.books items
        if total < 0 then (.orderInsertFailed, db)
        else
          let oid := db.nextOrderId
          let newItems := snapshotItems db.books oid items
          if newItems.any (fun it => it.quantity ≤ 0 || decide (it.price_at_purchase < 0))
          then (.itemInsertFailed, db)
          else
            (.created oid total,
             { db with
                 books := bs2
                 orders := db.orders ++
                   [{ id := oid, user_id := userId,
                      employee_id := if isStaff then some userId else none,
                      total_amount := total, status := "pending" }]
                 order_items := db.order_items ++ newItems
                 nextOrderId := oid + 1 })

/-- The observable outcome of `PUT /api/orders/:id/status`. -/
inductive StatusResult where
  /-- HTTP 400 `Invalid status value.` -/
  | invalidStatus
  /-- HTTP 404 `Order not found.` -/
  | orderNotFound
  /-- HTTP 500 `Failed to update order status.` (any failing statement rolls
  the whole transaction back) -/
  | dbFailure
  /-- HTTP 200 `Order status updated successfully.` -/
  | updated
  deriving Repr, DecidableEq

/-- Source: `const validStatuses = ['pending','processing','shipped','delivered','cancelled']`,
also the `CHECK` enum of the `orders.status` column. -/
def validStatuses : List String :=
  ["pending", "processing", "shipped", "delivered", "cancelled"]

/-- SQL: `SELECT ... FROM orders WHERE id = ?` (first matching row). -/
def findOrder (os : List Order) (i : Nat) : Option Order :=
  os.find? (fun o => o.id == i)

/-- SQL: `UPDATE orders SET status = s WHERE id = i` under the
`CHECK(status IN ('pending','processing','shipped','delivered','cancelled'))`
constraint of the `orders` table: the statement errors (`none`) when a row
would receive a value outside the enum; matching no rows is a success. -/
def sqlSetOrderStatus (os : List Order) (i : Nat) (s : String) : Option (List Order) :=
  match findOrder os i with
  | none => some os
  | some _ =>
    if s ∈ validStatuses then
      some (os.map (fun o => if o.id == i then { o with status := s } else o))
    else none

/-- SQL: `SELECT book_id, quantity FROM order_items WHERE order_id = ?`. -/
def itemsOfOrder (db : Db) (oid : Nat) : List OrderItem :=
  db.order_items.filter (fun it => it.order_id == oid)

/-- The restock loop of the cancel branch: one
`UPDATE books SET stock_quantity = stock_quantity + ? WHERE id = ?` per
order item, all inside the transaction; if any statement fails the whole
transaction (status write included) is rolled back (`none`). -/
def restockItems (bs : List Book) : List OrderItem → Option (List Book)
  | [] => some bs
  | it :: its =>
    match updStock bs it.book_id it.quantity with
    | none => none
    | some bs2 => restockItems bs2 its

/-- Route `PUT /api/orders/:id/status`: validate the target, fetch the order,
then in one transaction write the new status and — exactly when the
target is `cancelled` and the previous status was not — add every order
item's quantity back to its book's stock. -/
def updateOrderStatus (db : Db) (oid : Nat) (target : String) : StatusResult × Db :=
  if target ∈ validStatuses then
    match findOrder db.orders oid with
    | none => (.orderNotFound, db)
    | some ord =>
      match sqlSetOrderStatus db.orders oid target with
      | none => (.dbFailure, db)
      | some os2 =>
        if target == "cancelled" && ord.status != "cancelled" then
          match restockItems db.books (itemsOfOrder db oid) with
          | some bs2 => (.updated, { db with orders := os2, books := bs2 })
          | none => (.dbFailure, db)
        else (.updated, { db with orders := os2 })
  else (.invalidStatus, db)

/-- The observable outcome of `PUT /api/supplier-orders/:id/status`. -/
inductive SupplierResult where
  /-- HTTP 400 `Invalid status.` -/
  | invalidStatus
  /-- HTTP 404 `Supplier order not found.` -/
  | notFound
  /-- HTTP 200 `Supplier order updated successfully.` -/
  | updated
  deriving Repr, DecidableEq

/-- Enum `['Pending','Shipped','Received','Cancelled']`, also the `CHECK` enum
of the `supplier_orders.status` column. -/
def supplierStatuses : List String :=
  ["Pending", "Shipped", "Received", "Cancelled"]

/-- SQL: `SELECT * FROM supplier_orders WHERE id = ?`. -/
def findSupplierOrder (ss : List SupplierOrder) (i : Nat) : Option SupplierOrder :=
  ss.find? (fun s => s.id == i)

/-- SQL: `UPDATE supplier_orders SET status = ? WHERE id = ?`. -/
def setSupplierStatus (ss : List SupplierOrder) (i : Nat) (st : String) : List SupplierOrder :=
  ss.map (fun s => if s.id == i then { s with status := st } else s)

/-- Route `PUT /api/supplier-orders/:id/status`: validate the target, fetch the
order, write the status, and when the target is `Received` and the
previous status was not, schedule the stock-credit `UPDATE` for the
referenced book.  The stock credit is *not* part of a transaction with
the status write: its failure is only logged (`console.error`) while the
route has already answered 200.  `stockWriteFault` injects a storage
failure into that single statement to model this observable gap. -/
def updateSupplierOrderStatusF (db : Db) (soid : Nat) (target : String)
    (stockWriteFault : Bool) : SupplierResult × Db :=
  if target ∈ supplierStatuses then
    match findSupplierOrder db.supplier_orders soid with
    | none => (.notFound, db)
    | some so =>
      let db1 := { db with supplier_orders := setSupplierStatus db.supplier_orders soid target }
      if target == "Received" && so.status != "Received" then
        if stockWriteFault then (.updated, db1)
        else
          match updStock db1.books so.book_id so.quantity with
          | some bs2 => (.updated, { db1 with books := bs2 })
          | none => (.updated, db1)
      else (.updated, db1)
  else (.invalidStatus, db)

/-- Route `PUT /api/supplier-orders/:id/status` on a fault-free store. -/
def updateSupplierOrderStatus (db : Db) (soid : Nat) (target : String) :
    SupplierResult × Db :=
  updateSupplierOrderStatusF db soid target false

/-- Outcome of the remaining CRUD entry points (payloads elided). -/
inductive CrudResult where
  | badRequest
  | notFound
  | conflict
  | dbError
  | ok
  deriving Repr, DecidableEq

/-- The writable columns of a book that the claims mention (the other
text columns of the route payload are elided). -/
structure BookFields where
  title : String
  price : ℚ
  stock_quantity : Int
  deriving Repr, DecidableEq

/-- Route `POST /api/books`: rejects a negative price or stock up front, then
inserts the row (ISBN uniqueness elided). -/
def createBook (db : Db) (newId : Nat) (f : BookFields) : CrudResult × Db :=
  if f.price < 0 ∨ f.stock_quantity < 0 then (.badRequest, db)
  else
    (.ok, { db with books := db.books ++
      [{ id := newId, title := f.title, price := f.price,
         stock_quantity := f.stock_quantity }] })

/-- Route `PUT /api/books/:id`: one `UPDATE books SET ... WHERE id = ?`; a
matched row violating `CHECK(price >= 0)` or `CHECK(stock_quantity >= 0)`
errors the statement (500), `this.changes === 0` answers 404. -/
def updateBook (db : Db) (bid : Nat) (f : BookFields) : CrudResult × Db :=
  match findBook db.books bid with
  | none => (.notFound, db)
  | some _ =>
    if f.price < 0 ∨ f.stock_quantity < 0 then (.dbError, db)
    else
      (.ok, { db with books := db.books.map (fun b =>
        if b.id == bid then
          { b with title := f.title, price := f.price,
                   stock_quantity := f.stock_quantity }
        else b) })

/-- Route `DELETE /api/books/:id` under `PRAGMA foreign_keys = ON`:
`order_items.book_id` and `supplier_orders.book_id` reference `books`
without a cascade, so a referenced book cannot be deleted (the statement
errors, 500); `reviews.book_id` carries `ON DELETE CASCADE`. -/
def deleteBook (db : Db) (bid : Nat) : CrudResult × Db :=
  match findBook db.books bid with
  | none => (.notFound, db)
  | some _ =>
    if db.order_items.any (fun it => it.book_id == bid)
        || db.supplier_orders.any (fun s => s.book_id == bid) then
      (.dbError, db)
    else
      (.ok, { db with books := db.books.filter (fun b => b.id != bid),
                      reviews := db.reviews.filter (fun r => r.book_id != bid) })

/-- Route `POST /api/reviews`: validate the payload and rating range, then
insert the row under `UNIQUE(book_id, user_id)` and the foreign key to
`books`. -/
def addReview (db : Db) (userId : Nat) (bid : Nat) (rating : Int) : CrudResult × Db :=
  if bid == 0 || rating == 0 then (.badRequest, db)
  else if rating < 1 || rating > 5 then (.badRequest, db)
  else if db.reviews.any (fun r => r.book_id == bid && r.user_id == userId) then
    (.conflict, db)
  else if db.books.any (fun b => b.id == bid) then
    (.ok, { db with reviews := db.reviews ++
      [{ book_id := bid, user_id := userId, rating := rating }] })
  else (.dbError, db)

/-- Route `POST /api/supplier-orders`: validate the payload, insert the row
(status defaults to `Pending`; the foreign key to `books` is enforced,
the `suppliers` table is elided). -/
def createSupplierOrder (db : Db) (newId : Nat) (bid supplierId : Nat) (qty : Int) :
    CrudResult × Db :=
  if bid == 0 || supplierId == 0 || qty == 0 then (.badRequest, db)
  else if db.books.any (fun b => b.id == bid) then
    (.ok, { db with supplier_orders := db.supplier_orders ++
      [{ id := newId, book_id := bid, quantity := qty, status := "Pending" }] })
  else (.dbError, db)

/-- The observable outcome of `POST /api/process-payment`. -/
inductive PayResult where
  | badRequest
  /-- HTTP 500 `Failed to update order status` -/
  | updateFailed
  | notFound
  | paid
  deriving Repr, DecidableEq

/-- The credit-card fields of the mock payment payload. -/
structure CardDetails where
  card_number : String
  card_expiry : String
  card_cvv : String
  deriving Repr, DecidableEq

/-- The database effect of `POST /api/process-payment` after its input
validation: `UPDATE orders SET status = 'Confirmed' WHERE id = ?`.
`'Confirmed'` lies outside the `CHECK(status IN ...)` enum of the
`orders` table, so the statement errors whenever it matches a row. -/
def processPaymentCore (db : Db) (order_id : Nat) : PayResult × Db :=
  match sqlSetOrderStatus db.orders order_id "Confirmed" with
  | none => (.updateFailed, db)
  | some os2 =>
    match findOrder os2 order_id with
    | none => (.notFound, { db with orders := os2 })
    | some _ => (.paid, { db with orders := os2 })

/-- Route `POST /api/process-payment`: validate order id, payment method and,
for `credit_card`, the card fields and card-number length, then attempt
the status write. -/
def processPayment (db : Db) (order_id : Nat) (payment_method : String)
    (card : Option CardDetails) : PayResult × Db :=
  if order_id == 0 || payment_method == "" then (.badRequest, db)
  else if payment_method == "credit_card" then
    match card with
    | none => (.badRequest, db)
    | some c =>
      if c.card_number.length < 13 || c.card_number.length > 19 then (.badRequest, db)
      else processPaymentCore db order_id
  else processPaymentCore db order_id

/-! ## Schema invariants and helper lemmas -/

/-- Every row of a books table satisfies `CHECK(stock_quantity >= 0)`. -/
abbrev BooksNonneg (bs : List Book) : Prop := ∀ b ∈ bs, 0 ≤ b.stock_quantity

/-- Every book's stock is non-negative in the state. -/
abbrev StocksNonneg (db : Db) : Prop := BooksNonneg db.books

/-- Column `books.id` is the `PRIMARY KEY`: ids are pairwise distinct. -/
abbrev UniqueBookIds (bs : List Book) : Prop := (bs.map Book.id).Nodup

/-- Sum of the quantities of the cart lines referencing book `i`. -/
def sumQtyLines : List CartLine → Nat → Int
  | [], _ => 0
  | l :: ls, i => (if l.book_id = i then l.quantity else 0) + sumQtyLines ls i

/-- Sum of the quantities of the order items referencing book `i`. -/
def sumQtyItems : List OrderItem → Nat → Int
  | [], _ => 0
  | it :: its, i => (if it.book_id = i then it.quantity else 0) + sumQtyItems its i

theorem updStock_nonneg {bs bs2 : List Book} {i : Nat} {d : Int}
    (h : BooksNonneg bs) (hu : updStock bs i d = some bs2) : BooksNonneg bs2 := by
  unfold updStock at hu
  split at hu
  · exact absurd hu (by simp)
  · next hany =>
    rw [Option.some.injEq] at hu
    subst hu
    intro b hb
    rw [List.mem_map] at hb
    obtain ⟨a, ha, hfa⟩ := hb
    by_cases hid : (a.id == i) = true
    · rw [if_pos hid] at hfa
      subst hfa
      simp only [List.any_eq_true, not_exists, not_and] at hany
      have := hany a ha
      simp only [hid, Bool.true_and, decide_eq_true_eq] at this
      simpa using le_of_not_lt this
    · rw [if_neg hid] at hfa
      subst hfa
      exact h a ha

theorem stockOf_updStock {bs bs2 : List Book} {i : Nat} {d : Int}
    (hu : updStock bs i d = some bs2) (j : Nat) :
    stockOf bs2 j = if j = i then (stockOf bs j).map (· + d) else stockOf bs j := by
  unfold updStock at hu
  split at hu
  · exact absurd hu (by simp)
  · rw [Option.some.injEq] at hu
    subst hu
    unfold stockOf findBook
    rw [List.find?_map]
    have hp : (fun b : Book => b.id == j) ∘
        (fun b : Book => if b.id == i then { b with stock_quantity := b.stock_quantity + d } else b) =
        fun b : Book => b.id == j := by
      funext b
      by_cases hid : b.id = i
      · simp [hid]
      · simp [hid]
    rw [hp]
    cases hfind : List.find? (fun b : Book => b.id == j) bs with
    | none => simp [hfind]
    | some b =>
      have hb : b.id = j := by simpa using List.find?_some hfind
      by_cases hji : j = i
      · subst hji
        simp [hfind, hb]
      · have hbne : b.id ≠ i := by rw [hb]; exact hji
        simp [hfind, hji, hbne]

theorem txnDecrements_nonneg {bs bs2 : List Book} {ls : List CartLine}
    (h : BooksNonneg bs) (ht : txnDecrements bs ls = some bs2) : BooksNonneg bs2 := by
  induction ls generalizing bs with
  | nil =>
    unfold txnDecrements at ht
    rw [Option.some.injEq] at ht
    subst ht
    exact h
  | cons l ls ih =>
    unfold txnDecrements at ht
    cases hu : updStock bs l.book_id (-l.quantity) with
    | none => rw [hu] at ht; exact absurd ht (by simp)
    | some bs1 =>
      rw [hu] at ht
      exact ih (updStock_nonneg h hu) ht

theorem txnDecrements_stockOf {bs bs2 : List Book} {ls : List CartLine}
    (ht : txnDecrements bs ls = some bs2) (j : Nat) :
    stockOf bs2 j = (stockOf bs j).map (· - sumQtyLines ls j) := by
  induction ls generalizing bs with
  | nil =>
    unfold txnDecrements at ht
    rw [Option.some.injEq] at ht
    subst ht
    cases stockOf bs j <;> simp [sumQtyLines]
  | cons l ls ih =>
    unfold txnDecrements at ht
    cases hu : updStock bs l.book_id (-l.quantity) with
    | none => rw [hu] at ht; exact absurd ht (by simp)
    | some bs1 =>
      rw [hu] at ht
      rw [ih ht, stockOf_updStock hu j]
      by_cases hj : j = l.book_id
      · rw [if_pos hj]
        cases stockOf bs j <;> simp [sumQtyLines, hj]
        ring
      · rw [if_neg hj]
        have : l.book_id ≠ j := fun h2 => hj h2.symm
        cases stockOf bs j <;> simp [sumQtyLines, this]

theorem autocommitDecrements_nonneg {bs : List Book} {ls : List CartLine}
    (h : BooksNonneg bs) : BooksNonneg (autocommitDecrements bs ls) := by
  induction ls generalizing bs with
  | nil => exact h
  | cons l ls ih =>
    show BooksNonneg (List.foldl _ _ (l :: ls))
    rw [List.foldl_cons]
    cases hu : updStock bs l.book_id (-l.quantity) with
    | none =>
      simp only [hu]
      exact ih h
    | some bs1 =>
      simp only [hu]
      exact ih (updStock_nonneg h hu)

theorem restockItems_nonneg {bs bs2 : List Book} {its : List OrderItem}
    (h : BooksNonneg bs) (ht : restockItems bs its = some bs2) : BooksNonneg bs2 := by
  induction its generalizing bs with
  | nil =>
    unfold restockItems at ht
    rw [Option.some.injEq] at ht
    subst ht
    exact h
  | cons it its ih =>
    unfold restockItems at ht
    cases hu : updStock bs it.book_id it.quantity with
    | none => rw [hu] at ht; exact absurd ht (by simp)
    | some bs1 =>
      rw [hu] at ht
      exact ih (updStock_nonneg h hu) ht

theorem restockItems_stockOf {bs bs2 : List Book} {its : List OrderItem}
    (ht : restockItems bs its = some bs2) (j : Nat) :
    stockOf bs2 j = (stockOf bs j).map (· + sumQtyItems its j) := by
  induction its generalizing bs with
  | nil =>
    unfold restockItems at ht
    rw [Option.some.injEq] at ht
    subst ht
    cases stockOf bs j <;> simp [sumQtyItems]
  | cons it its ih =>
    unfold restockItems at ht
    cases hu : updStock bs it.book_id it.quantity with
    | none => rw [hu] at ht; exact absurd ht (by simp)
    | some bs1 =>
      rw [hu] at ht
      rw [ih ht, stockOf_updStock hu j]
      by_cases hj : j = it.book_id
      · rw [if_pos hj]
        cases stockOf bs j <;> simp [sumQtyItems, hj]
        ring
      · rw [if_neg hj]
        have : it.book_id ≠ j := fun h2 => hj h2.symm
        cases stockOf bs j <;> simp [sumQtyItems, this]

theorem restockItems_total {bs : List Book} {its : List OrderItem}
    (h : BooksNonneg bs) (hq : ∀ it ∈ its, 0 ≤ it.quantity) :
    ∃ bs2, restockItems bs its = some bs2 := by
  induction its generalizing bs with
  | nil => exact ⟨bs, rfl⟩
  | cons it its ih =>
    have hguard : (bs.any fun b => b.id == it.book_id && decide (b.stock_quantity + it.quantity < 0)) = false := by
      rw [Bool.eq_false_iff]
      intro hcon
      rw [List.any_eq_true] at hcon
      obtain ⟨b, hb, hcond⟩ := hcon
      rw [Bool.and_eq_true, decide_eq_true_eq] at hcond
      have h1 := h b hb
      have h2 := hq it (by simp)
      omega
    have hu : updStock bs it.book_id it.quantity =
        some (bs.map fun b =>
          if b.id == it.book_id then { b with stock_quantity := b.stock_quantity + it.quantity } else b) := by
      unfold updStock
      rw [hguard]
      simp
    obtain ⟨bs2, hbs2⟩ := ih (updStock_nonneg h hu) (fun x hx => hq x (by simp [hx]))
    exact ⟨bs2, by unfold restockItems; rw [hu]; exact hbs2⟩

theorem findBook_self {bs : List Book} (hu : UniqueBookIds bs) {b : Book} (hb : b ∈ bs) :
    findBook bs b.id = some b := by
  induction bs with
  | nil => cases hb
  | cons a t ih =>
    have hu2 : a.id ∉ t.map Book.id ∧ (t.map Book.id).Nodup := by
      have h0 : ((a :: t).map Book.id).Nodup := hu
      rw [List.map_cons, List.nodup_cons] at h0
      exact h0
    cases hb with
    | head => exact List.find?_cons_of_pos _ (by simp)
    | tail _ hbt =>
      have hne : a.id ≠ b.id := by
        intro he
        exact hu2.1 (he ▸ List.mem_map_of_mem Book.id hbt)
      unfold findBook
      rw [List.find?_cons_of_neg _ (by simp [hne])]
      exact ih hu2.2 hbt

theorem findOrder_append {os : List Order} {i : Nat} {ord : Order}
    (h : findOrder os i = some ord) (os2 : List Order) :
    findOrder (os ++ os2) i = some ord := by
  unfold findOrder at h ⊢
  rw [List.find?_append, h]
  rfl

theorem foldl_add_eq_sum {α : Type} (f : α → ℚ) (ls : List α) (a : ℚ) :
    ls.foldl (fun acc l => acc + f l) a = a + (ls.map f).sum := by
  induction ls generalizing a with
  | nil => simp
  | cons l ls ih =>
    rw [List.foldl_cons, ih, List.map_cons, List.sum_cons]
    ring

theorem orderTotal_eq_sum (bs : List Book) (ls : List CartLine) :
    orderTotal bs ls = (ls.map fun l => priceOf bs l.book_id * (l.quantity : ℚ)).sum := by
  unfold orderTotal
  rw [foldl_add_eq_sum]
  ring

theorem priceOf_nonneg {bs : List Book} (h : ∀ b ∈ bs, 0 ≤ b.price) (i : Nat) :
    0 ≤ priceOf bs i := by
  unfold priceOf findBook
  cases hf : List.find? (fun b : Book => b.id == i) bs with
  | none => simp
  | some b =>
    have := h b (List.mem_of_find?_eq_some hf)
    simpa using this

theorem orderTotal_nonneg {bs : List Book} {ls : List CartLine}
    (hp : ∀ b ∈ bs, 0 ≤ b.price) (hq : ∀ l ∈ ls, 0 ≤ l.quantity) :
    0 ≤ orderTotal bs ls := by
  rw [orderTotal_eq_sum]
  apply List.sum_nonneg
  intro x hx
  rw [List.mem_map] at hx
  obtain ⟨l, hl, rfl⟩ := hx
  have h1 := priceOf_nonneg hp l.book_id
  have h2 : (0 : ℚ) ≤ (l.quantity : ℚ) := by exact_mod_cast hq l hl
  positivity

theorem firstCheckFailure_shape {bs : List Book} {ls : List CartLine}
    {e : PlaceResult} {rest : List CartLine}
    (h : firstCheckFailure bs ls = some (e, rest)) :
    (∃ i, e = .bookNotFound i) ∨ ∃ t a, e = .insufficientStock t a := by
  induction ls with
  | nil => exact absurd h (by simp [firstCheckFailure])
  | cons l ls ih =>
    unfold firstCheckFailure at h
    cases hc : checkLine bs l with
    | missing =>
      rw [hc] at h
      rw [Option.some.injEq, Prod.mk.injEq] at h
      exact Or.inl ⟨l.book_id, h.1.symm⟩
    | short t a =>
      rw [hc] at h
      rw [Option.some.injEq, Prod.mk.injEq] at h
      exact Or.inr ⟨t, a, h.1.symm⟩
    | passed =>
      rw [hc] at h
      exact ih h

theorem firstCheckFailure_of_passed {bs : List Book} {ls : List CartLine}
    (h : ∀ l ∈ ls, checkLine bs l = .passed) :
    firstCheckFailure bs ls = none := by
  induction ls with
  | nil => rfl
  | cons l ls ih =>
    unfold firstCheckFailure
    rw [h l (by simp)]
    exact ih fun x hx => h x (by simp [hx])

theorem firstCheckFailure_append {bs : List Book} {pre : List CartLine}
    (h : ∀ l ∈ pre, checkLine bs l = .passed) (ls : List CartLine) :
    firstCheckFailure bs (pre ++ ls) = firstCheckFailure bs ls := by
  induction pre with
  | nil => rfl
  | cons p pre ih =>
    rw [List.cons_append]
    simp only [firstCheckFailure, h p (by simp : p ∈ p :: pre)]
    exact ih fun x hx => h x (by simp [hx])

theorem placeOrder_nonneg {db : Db} (h : StocksNonneg db) (userId : Nat)
    (isStaff : Bool) (items : List CartLine) :
    StocksNonneg (placeOrder db userId isStaff items).2 := by
  unfold placeOrder
  split
  · exact h
  · split
    · exact autocommitDecrements_nonneg h
    · split
      · exact autocommitDecrements_nonneg h
      · split
        · exact h
        · next bs2 heq =>
          dsimp only
          split
          · exact h
          · split
            · exact h
            · exact txnDecrements_nonneg h heq

theorem updateOrderStatus_nonneg {db : Db} (h : StocksNonneg db) (oid : Nat)
    (target : String) : StocksNonneg (updateOrderStatus db oid target).2 := by
  unfold updateOrderStatus
  split
  · split
    · exact h
    · split
      · exact h
      · split
        · split
          · next bs2 heq => exact restockItems_nonneg h heq
          · exact h
        · exact h
  · exact h

theorem updateSupplierOrderStatusF_nonneg {db : Db} (h : StocksNonneg db) (soid : Nat)
    (target : String) (fault : Bool) :
    StocksNonneg (updateSupplierOrderStatusF db soid target fault).2 := by
  unfold updateSupplierOrderStatusF
  split
  · split
    · exact h
    · split
      · dsimp only
        split
        · exact h
        · split
          · next bs2 heq => exact updStock_nonneg h heq
          · exact h
      · exact h
  · exact h

/-- One call to one of the three stock-mutating entry points of the
workflow (order placement, order-status transition, supplier receipt —
the latter with an arbitrary fault on its stock-credit write). -/
inductive Step : Db → Db → Prop where
  | place (db : Db) (userId : Nat) (isStaff : Bool) (items : List CartLine) :
      Step db (placeOrder db userId isStaff items).2
  | orderStatus (db : Db) (oid : Nat) (target : String) :
      Step db (updateOrderStatus db oid target).2
  | supplierStatus (db : Db) (soid : Nat) (target : String) (fault : Bool) :
      Step db (updateSupplierOrderStatusF db soid target fault).2

/-- States reachable by a sequence of workflow calls. -/
inductive Reachable : Db → Db → Prop where
  | refl (db : Db) : Reachable db db
  | tail {db db1 db2 : Db} : Reachable db db1 → Step db1 db2 → Reachable db db2

/-! ## Concrete states for counterexamples and witnesses -/

/-- A book with five copies in stock. -/
def sampleBook : Book := { id := 1, title := "Dune", price := 10, stock_quantity := 5 }

/-- A pending order of user 7. -/
def sampleOrder : Order :=
  { id := 1, user_id := 7, employee_id := none, total_amount := 20, status := "pending" }

/-- A small well-formed state: one book, one pending order with one item,
one pending supplier order. -/
def sampleDb : Db :=
  { books := [sampleBook],
    orders := [sampleOrder],
    order_items := [{ order_id := 1, book_id := 1, quantity := 2, price_at_purchase := 10 }],
    supplier_orders := [{ id := 1, book_id := 1, quantity := 20, status := "Pending" }],
    reviews := [],
    nextOrderId := 2 }

/-- The state `sampleDb` with its order already cancelled. -/
def cancelledOrderDb : Db :=
  { sampleDb with orders := [{ sampleOrder with status := "cancelled" }] }

/-- A state holding only book 2 with five copies (the atomicity
counterexample refers to the absent book 1 as well). -/
def dbC1 : Db :=
  { books := [{ id := 2, title := "B", price := 4, stock_quantity := 5 }],
    orders := [], order_items := [], supplier_orders := [], reviews := [],
    nextOrderId := 1 }

/-! ## Claim theorems -/

/-- Claim C1 (exhibit of the code bug): order placement is *not*
all-or-nothing, contrary to the route's own comment ("All happens or
nothing happens (no partial orders)").  On the cart
`[{book 1, qty 1}, {book 2, qty 3}]` against `dbC1` (book 1 absent,
book 2 stocked with 5) the call fails with `Book 1 not found.`, no order
or item row is created — yet book 2's stock has dropped from 5 to 2:
the second line's stock `UPDATE` was scheduled after the first line's
`ROLLBACK` and ran outside the aborted transaction. -/
theorem placement_failure_leaks_stock_decrement :
    (placeOrder dbC1 7 false [⟨1, 1⟩, ⟨2, 3⟩]).1 = .bookNotFound 1 ∧
    stockOf dbC1.books 2 = some 5 ∧
    stockOf (placeOrder dbC1 7 false [⟨1, 1⟩, ⟨2, 3⟩]).2.books 2 = some 2 ∧
    (placeOrder dbC1 7 false [⟨1, 1⟩, ⟨2, 3⟩]).2.orders = [] ∧
    (placeOrder dbC1 7 false [⟨1, 1⟩, ⟨2, 3⟩]).2.order_items = [] := by
  decide

/-- Claim C7: every state reachable from a state with non-negative stocks
by any sequence of order placements, order-status transitions and
supplier-receipt updates again has every book's `stock_quantity ≥ 0`
(each stock write is guarded by the `CHECK(stock_quantity >= 0)`
constraint inside the operation's transaction). -/
theorem stock_quantity_never_negative {db db2 : Db}
    (h0 : StocksNonneg db) (hr : Reachable db db2) : StocksNonneg db2 := by
  induction hr with
  | refl => exact h0
  | tail _ hs ih =>
    cases hs with
    | place u st its => exact placeOrder_nonneg ih u st its
    | orderStatus oid t => exact updateOrderStatus_nonneg ih oid t
    | supplierStatus soid t f => exact updateSupplierOrderStatusF_nonneg ih soid t f

/-- Witness for C7: the sample state has non-negative stocks, and so does
the state after a concrete placement step. -/
theorem stock_quantity_never_negative_witness :
    StocksNonneg sampleDb ∧ StocksNonneg (placeOrder sampleDb 7 false [⟨1, 2⟩]).2 :=
  ⟨by decide,
   stock_quantity_never_negative (by decide)
     (Reachable.tail (Reachable.refl sampleDb) (Step.place sampleDb 7 false [⟨1, 2⟩]))⟩

/-- Claim C8: editing a book (`PUT /api/books/:id`) — whatever the outcome —
leaves the `order_items` table (hence every `price_at_purchase`) and the
`orders` table (hence every `total_amount`) exactly as they were. -/
theorem book_edit_preserves_order_history (db : Db) (bid : Nat) (f : BookFields) :
    (updateBook db bid f).2.order_items = db.order_items ∧
    (updateBook db bid f).2.orders = db.orders := by
  unfold updateBook
  split
  · exact ⟨rfl, rfl⟩
  · split
    · exact ⟨rfl, rfl⟩
    · exact ⟨rfl, rfl⟩

/-- Claim C4: transitioning an order whose status is already `cancelled`
to `cancelled` again leaves every book's stock unchanged — the restock
branch requires the previous status to differ from `cancelled`. -/
theorem cancel_already_cancelled_preserves_stock (db : Db) (oid : Nat) (ord : Order)
    (hfind : findOrder db.orders oid = some ord)
    (hprev : ord.status = "cancelled") :
    (updateOrderStatus db oid "cancelled").2.books = db.books := by
  have hmem : "cancelled" ∈ validStatuses := by decide
  simp [updateOrderStatus, sqlSetOrderStatus, hfind, hmem, hprev]

/-- Witness for C4: re-cancelling the already-cancelled sample order does
not change the books table. -/
theorem cancel_already_cancelled_preserves_stock_witness :
    (updateOrderStatus cancelledOrderDb 1 "cancelled").2.books = cancelledOrderDb.books :=
  cancel_already_cancelled_preserves_stock cancelledOrderDb 1
    { sampleOrder with status := "cancelled" } (by decide) rfl

/-- Claim C2: a successful placement of a non-empty cart whose every line
references an existing book with `0 < quantity ≤ stock` returns the
fresh order id and the total Σ(price at check × quantity), appends one
`pending` order row carrying that total (briefed to the cashier's
`employee_id` when staff places it), appends one item row per line
snapshotting the price at check as `price_at_purchase`, and decrements
each referenced book's stock by the summed quantities of its lines. -/
theorem order_placement_success_effects
    (db : Db) (userId : Nat) (isStaff : Bool) (items : List CartLine)
    (oid : Nat) (total : ℚ) (db2 : Db)
    (hwf : UniqueBookIds db.books)
    (hne : items ≠ [])
    (hlines : ∀ l ∈ items, 0 < l.quantity ∧
        ∃ b ∈ db.books, b.id = l.book_id ∧ l.quantity ≤ b.stock_quantity)
    (hres : placeOrder db userId isStaff items = (.created oid total, db2)) :
    oid = db.nextOrderId ∧
    total = (items.map fun l => priceOf db.books l.book_id * (l.quantity : ℚ)).sum ∧
    db2.orders = db.orders ++
      [{ id := oid, user_id := userId,
         employee_id := if isStaff then some userId else none,
         total_amount := total, status := "pending" }] ∧
    db2.order_items = db.order_items ++ items.map (fun l =>
      { order_id := oid, book_id := l.book_id, quantity := l.quantity,
        price_at_purchase := priceOf db.books l.book_id }) ∧
    ∀ b ∈ db.books, stockOf db2.books b.id =
      some (b.stock_quantity - sumQtyLines items b.id) := by
  unfold placeOrder at hres
  split at hres
  · exact absurd hres (by simp)
  · split at hres
    · exact absurd hres (by simp)
    · split at hres
      · next e rest heq =>
        exfalso
        rcases firstCheckFailure_shape heq with ⟨i, rfl⟩ | ⟨t, a, rfl⟩ <;> simp at hres
      · split at hres
        · exact absurd hres (by simp)
        · next bs2 htxn =>
          dsimp only at hres
          split at hres
          · exact absurd hres (by simp)
          · split at hres
            · exact absurd hres (by simp)
            · rw [Prod.mk.injEq, PlaceResult.created.injEq] at hres
              obtain ⟨⟨hoid, htot⟩, hdb⟩ := hres
              subst hoid htot hdb
              refine ⟨rfl, orderTotal_eq_sum db.books items, rfl, rfl, ?_⟩
              intro b hb
              rw [txnDecrements_stockOf htxn b.id]
              unfold stockOf
              rw [findBook_self hwf hb]
              rfl

/-- The sample state after the witness placement of one copy of book 1. -/
def sampleDbAfter : Db :=
  { books := [{ id := 1, title := "Dune", price := 10, stock_quantity := 4 }],
    orders := [sampleOrder,
      { id := 2, user_id := 7, employee_id := none, total_amount := 10, status := "pending" }],
    order_items := [{ order_id := 1, book_id := 1, quantity := 2, price_at_purchase := 10 },
      { order_id := 2, book_id := 1, quantity := 1, price_at_purchase := 10 }],
    supplier_orders := [{ id := 1, book_id := 1, quantity := 20, status := "Pending" }],
    reviews := [],
    nextOrderId := 3 }

/-- Witness for C2: placing one copy of book 1 from `sampleDb` appends
exactly one pending order row whose total is 10. -/
theorem order_placement_success_effects_witness :
    sampleDbAfter.orders = sampleDb.orders ++
      [{ id := 2, user_id := 7, employee_id := none, total_amount := 10, status := "pending" }] :=
  (order_placement_success_effects sampleDb 7 false [⟨1, 1⟩] 2 10 sampleDbAfter
    (by decide) (by decide) (by decide)
    (by
      norm_num [placeOrder, sampleDb, sampleOrder, sampleBook, sampleDbAfter,
        firstCheckFailure, checkLine, findBook, List.find?, txnDecrements, updStock,
        orderTotal, priceOf, snapshotItems, lineInvalid])).2.2.1

/-- Claim C3: cancelling an order whose previous status is not `cancelled`
adds every order item's quantity back to the referenced book's stock, and
the status write commits together with the restock increments: on a
well-formed state the transaction succeeds and produces exactly the
status write plus the per-book restock sums, while a failing restock
(`restockItems … = none`) makes the whole call roll back — the status
change does not persist. -/
theorem order_cancel_restocks_atomically (db : Db) (oid : Nat) (ord : Order)
    (hfind : findOrder db.orders oid = some ord)
    (hprev : ord.status ≠ "cancelled") :
    (BooksNonneg db.books → UniqueBookIds db.books →
      (∀ it ∈ itemsOfOrder db oid, 0 < it.quantity) →
      ∃ bs2, restockItems db.books (itemsOfOrder db oid) = some bs2 ∧
        updateOrderStatus db oid "cancelled" =
          (.updated, { db with
              orders := db.orders.map fun o =>
                if o.id == oid then { o with status := "cancelled" } else o,
              books := bs2 }) ∧
        ∀ b ∈ db.books, stockOf bs2 b.id =
          some (b.stock_quantity + sumQtyItems (itemsOfOrder db oid) b.id)) ∧
    (restockItems db.books (itemsOfOrder db oid) = none →
      updateOrderStatus db oid "cancelled" = (.dbFailure, db)) := by
  have hmem : "cancelled" ∈ validStatuses := by decide
  have hcond : ("cancelled" == "cancelled" && ord.status != "cancelled") = true := by
    simp [hprev]
  constructor
  · intro hnn huq hqty
    obtain ⟨bs2, hbs2⟩ := restockItems_total hnn fun it hit => le_of_lt (hqty it hit)
    refine ⟨bs2, hbs2, ?_, ?_⟩
    · simp [updateOrderStatus, sqlSetOrderStatus, hfind, hmem, hcond, hbs2, hprev]
    · intro b hb
      rw [restockItems_stockOf hbs2 b.id]
      unfold stockOf
      rw [findBook_self huq hb]
      rfl
  · intro hnone
    simp [updateOrderStatus, sqlSetOrderStatus, hfind, hmem, hcond, hnone, hprev]

/-- Witness for C3: cancelling the pending sample order restocks its
two-copy item, raising book 1's stock from 5 to 7, atomically with the
status write. -/
theorem order_cancel_restocks_atomically_witness :
    updateOrderStatus sampleDb 1 "cancelled" =
      (.updated, { sampleDb with
          orders := sampleDb.orders.map fun o =>
            if o.id == 1 then { o with status := "cancelled" } else o,
          books := [{ id := 1, title := "Dune", price := 10, stock_quantity := 7 }] }) := by
  obtain ⟨bs2, h1, h2, h3⟩ :=
    (order_cancel_restocks_atomically sampleDb 1 sampleOrder (by decide) (by decide)).1
      (by decide) (by decide) (by decide)
  have h4 : restockItems sampleDb.books (itemsOfOrder sampleDb 1) =
      some [{ id := 1, title := "Dune", price := 10, stock_quantity := 7 }] := by decide
  rw [h4] at h1
  injection h1 with hbs
  rw [hbs, h2]

/-- Claim C5: updating a supplier order's status to `Received` credits the
referenced book's stock by the order's quantity exactly when the previous
status was not already `Received`; re-receiving an already-`Received`
order leaves the books table unchanged. -/
theorem supplier_receipt_credits_stock_once (db : Db) (soid : Nat)
    (so : SupplierOrder) (b : Book)
    (hso : findSupplierOrder db.supplier_orders soid = some so)
    (hb : findBook db.books so.book_id = some b)
    (hwf : UniqueBookIds db.books)
    (hnn : 0 ≤ b.stock_quantity + so.quantity) :
    (so.status ≠ "Received" →
      stockOf (updateSupplierOrderStatus db soid "Received").2.books so.book_id =
        some (b.stock_quantity + so.quantity)) ∧
    (so.status = "Received" →
      (updateSupplierOrderStatus db soid "Received").2.books = db.books) := by
  have hmem : "Received" ∈ supplierStatuses := by decide
  have hbmem : b ∈ db.books := List.mem_of_find?_eq_some hb
  have hbid : b.id = so.book_id := by simpa using List.find?_some hb
  constructor
  · intro hne
    have hcond : ("Received" == "Received" && so.status != "Received") = true := by
      simp [hne]
    have hguard : (db.books.any fun b2 =>
        b2.id == so.book_id && decide (b2.stock_quantity + so.quantity < 0)) = false := by
      rw [Bool.eq_false_iff]
      intro hcon
      rw [List.any_eq_true] at hcon
      obtain ⟨b2, hb2, hcond2⟩ := hcon
      rw [Bool.and_eq_true, beq_iff_eq, decide_eq_true_eq] at hcond2
      have hb2b : b2 = b := List.inj_on_of_nodup_map hwf hb2 hbmem (by rw [hcond2.1, hbid])
      subst hb2b
      omega
    have hupd : updStock db.books so.book_id so.quantity =
        some (db.books.map fun b2 =>
          if b2.id == so.book_id then
            { b2 with stock_quantity := b2.stock_quantity + so.quantity }
          else b2) := by
      unfold updStock
      rw [hguard]
      simp
    have hres : (updateSupplierOrderStatus db soid "Received").2.books =
        db.books.map fun b2 =>
          if b2.id == so.book_id then
            { b2 with stock_quantity := b2.stock_quantity + so.quantity }
          else b2 := by
      unfold updateSupplierOrderStatus updateSupplierOrderStatusF
      rw [if_pos hmem, hso]
      simp only [hcond, if_true, Bool.false_eq_true, if_false, hupd]
    rw [hres]
    have hstock := stockOf_updStock hupd so.book_id
    rw [if_pos rfl] at hstock
    rw [hstock]
    unfold stockOf
    rw [hb]
    rfl
  · intro hre
    have hcond : ("Received" == "Received" && so.status != "Received") = false := by
      simp [hre]
    unfold updateSupplierOrderStatus updateSupplierOrderStatusF
    rw [if_pos hmem, hso]
    simp only [hcond, Bool.false_eq_true, if_false]

/-- Witness for C5: receiving the pending 20-copy supplier order for
book 1 raises its stock from 5 to 25. -/
theorem supplier_receipt_credits_stock_once_witness :
    stockOf (updateSupplierOrderStatus sampleDb 1 "Received").2.books 1 = some 25 := by
  have h := (supplier_receipt_credits_stock_once sampleDb 1
    { id := 1, book_id := 1, quantity := 20, status := "Pending" } sampleBook
    (by decide) (by decide) (by decide) (by decide)).1 (by decide)
  simpa [sampleBook] using h

/-- Claim C10: the supplier-status route reports success as soon as the
status row write succeeds: with the stock-credit write failing (whether
by an injected storage fault or by the stock `CHECK` rejecting it) the
response is still success, the status write persists, and the books
table is left untouched — the failure is only logged. -/
theorem supplier_receipt_succeeds_despite_stock_fault (db : Db) (soid : Nat)
    (target : String) (so : SupplierOrder)
    (hso : findSupplierOrder db.supplier_orders soid = some so)
    (ht : target ∈ supplierStatuses) :
    updateSupplierOrderStatusF db soid target true =
      (.updated,
       { db with supplier_orders := setSupplierStatus db.supplier_orders soid target }) ∧
    (updStock db.books so.book_id so.quantity = none →
      updateSupplierOrderStatusF db soid target false =
        (.updated,
         { db with supplier_orders := setSupplierStatus db.supplier_orders soid target })) := by
  constructor
  · simp only [updateSupplierOrderStatusF, hso, if_pos ht]
    split
    · rfl
    · rfl
  · intro hnone
    simp [updateSupplierOrderStatusF, hso, ht, hnone]

/-- Witness for C10: with the stock-credit write failing, receiving the
sample supplier order still answers success and persists the status. -/
theorem supplier_receipt_succeeds_despite_stock_fault_witness :
    updateSupplierOrderStatusF sampleDb 1 "Received" true =
      (.updated,
       { sampleDb with
           supplier_orders := setSupplierStatus sampleDb.supplier_orders 1 "Received" }) :=
  (supplier_receipt_succeeds_despite_stock_fault sampleDb 1 "Received"
    { id := 1, book_id := 1, quantity := 20, status := "Pending" }
    (by decide) (by decide)).1

/-- SQL: `SELECT status FROM orders WHERE id = ?`. -/
def orderStatusOf (db : Db) (i : Nat) : Option String :=
  (findOrder db.orders i).map Order.status

theorem sqlSetOrderStatus_confirmed {os : List Order} {i : Nat} {os2 : List Order}
    (h : sqlSetOrderStatus os i "Confirmed" = some os2) : os2 = os := by
  unfold sqlSetOrderStatus at h
  cases hf : findOrder os i with
  | none =>
    rw [hf] at h
    rw [Option.some.injEq] at h
    exact h.symm
  | some o =>
    rw [hf] at h
    rw [if_neg (by decide : ¬("Confirmed" ∈ validStatuses))] at h
    exact absurd h (by simp)

theorem createBook_orders (db : Db) (newId : Nat) (f : BookFields) :
    (createBook db newId f).2.orders = db.orders := by
  unfold createBook
  split
  · rfl
  · rfl

theorem updateBook_orders (db : Db) (bid : Nat) (f : BookFields) :
    (updateBook db bid f).2.orders = db.orders := by
  unfold updateBook
  split
  · rfl
  · split
    · rfl
    · rfl

theorem deleteBook_orders (db : Db) (bid : Nat) :
    (deleteBook db bid).2.orders = db.orders := by
  unfold deleteBook
  split
  · rfl
  · split
    · rfl
    · rfl

theorem addReview_orders (db : Db) (userId bid : Nat) (rating : Int) :
    (addReview db userId bid rating).2.orders = db.orders := by
  unfold addReview
  split
  · rfl
  · split
    · rfl
    · split
      · rfl
      · split
        · rfl
        · rfl

theorem createSupplierOrder_orders (db : Db) (newId bid supplierId : Nat) (qty : Int) :
    (createSupplierOrder db newId bid supplierId qty).2.orders = db.orders := by
  unfold createSupplierOrder
  split
  · rfl
  · split
    · rfl
    · rfl

theorem updateSupplierOrderStatusF_orders (db : Db) (soid : Nat) (target : String)
    (fault : Bool) : (updateSupplierOrderStatusF db soid target fault).2.orders = db.orders := by
  unfold updateSupplierOrderStatusF
  split
  · split
    · rfl
    · dsimp only
      split
      · split
        · rfl
        · split
          · rfl
          · rfl
      · rfl
  · rfl

theorem placeOrder_orders (db : Db) (userId : Nat) (isStaff : Bool) (items : List CartLine) :
    (placeOrder db userId isStaff items).2.orders = db.orders ∨
    ∃ o, (placeOrder db userId isStaff items).2.orders = db.orders ++ [o] := by
  unfold placeOrder
  split
  · exact Or.inl rfl
  · split
    · exact Or.inl rfl
    · split
      · exact Or.inl rfl
      · split
        · exact Or.inl rfl
        · dsimp only
          split
          · exact Or.inl rfl
          · split
            · exact Or.inl rfl
            · exact Or.inr ⟨_, rfl⟩

theorem processPaymentCore_orders (db : Db) (oid : Nat) :
    (processPaymentCore db oid).2.orders = db.orders := by
  unfold processPaymentCore
  split
  · rfl
  · next os2 hq =>
    have hos := sqlSetOrderStatus_confirmed hq
    subst hos
    split
    · rfl
    · rfl

theorem processPayment_orders (db : Db) (oid : Nat) (pm : String)
    (card : Option CardDetails) : (processPayment db oid pm card).2.orders = db.orders := by
  unfold processPayment
  split
  · rfl
  · split
    · split
      · rfl
      · split
        · rfl
        · exact processPaymentCore_orders db oid
    · exact processPaymentCore_orders db oid

/-- Claim C9: no entry point other than the order-status-transition route
ever changes an existing order's status — book create/update/delete,
order placement (which only appends a fresh order), reviews,
supplier-order creation and status update (with or without a stock-write
fault), and payment processing all leave every existing order's status
as it was.  The payment route does attempt
`UPDATE orders SET status = 'Confirmed'`, but `'Confirmed'` lies outside
the `CHECK(status IN ...)` enum of the `orders` table, so that statement
errors whenever it matches a row. -/
theorem order_status_changed_only_by_transition (db : Db) (i : Nat) (s : String)
    (h : orderStatusOf db i = some s) :
    (∀ newId f, orderStatusOf (createBook db newId f).2 i = some s) ∧
    (∀ bid f, orderStatusOf (updateBook db bid f).2 i = some s) ∧
    (∀ bid, orderStatusOf (deleteBook db bid).2 i = some s) ∧
    (∀ userId isStaff items, orderStatusOf (placeOrder db userId isStaff items).2 i = some s) ∧
    (∀ userId bid rating, orderStatusOf (addReview db userId bid rating).2 i = some s) ∧
    (∀ newId bid supplierId qty,
      orderStatusOf (createSupplierOrder db newId bid supplierId qty).2 i = some s) ∧
    (∀ soid target fault,
      orderStatusOf (updateSupplierOrderStatusF db soid target fault).2 i = some s) ∧
    (∀ oid pm card, orderStatusOf (processPayment db oid pm card).2 i = some s) := by
  refine ⟨?_, ?_, ?_, ?_, ?_, ?_, ?_, ?_⟩
  · intro newId f
    unfold orderStatusOf
    rw [createBook_orders]
    exact h
  · intro bid f
    unfold orderStatusOf
    rw [updateBook_orders]
    exact h
  · intro bid
    unfold orderStatusOf
    rw [deleteBook_orders]
    exact h
  · intro userId isStaff items
    rcases placeOrder_orders db userId isStaff items with heq | ⟨o, heq⟩
    · unfold orderStatusOf
      rw [heq]
      exact h
    · unfold orderStatusOf at h ⊢
      rw [heq]
      cases hf : findOrder db.orders i with
      | none => rw [hf] at h; exact absurd h (by simp)
      | some ord =>
        rw [findOrder_append hf [o]]
        rw [hf] at h
        exact h
  · intro userId bid rating
    unfold orderStatusOf
    rw [addReview_orders]
    exact h
  · intro newId bid supplierId qty
    unfold orderStatusOf
    rw [createSupplierOrder_orders]
    exact h
  · intro soid target fault
    unfold orderStatusOf
    rw [updateSupplierOrderStatusF_orders]
    exact h
  · intro oid pm card
    unfold orderStatusOf
    rw [processPayment_orders]
    exact h

/-- Witness for C9: processing a payment against the sample order leaves
its status `pending` (the `'Confirmed'` write is rejected by the enum
constraint). -/
theorem order_status_changed_only_by_transition_witness :
    orderStatusOf (processPayment sampleDb 1 "cash" none).2 1 = some "pending" :=
  (order_status_changed_only_by_transition sampleDb 1 "pending"
    (by decide)).2.2.2.2.2.2.2 1 "cash" none

/-- Claim C6 counterexample: the four-error taxonomy is not a faithful
trigger map.  (i) On the cart `[{book 99, qty 1}, {book 2, qty 0}]` a
line's referenced book (99) does not exist, yet the response is the
invalid-item error, not `item not found` — the synchronous invalid-line
validation answers before any book lookup.  (ii) On
`[{book 2, qty 3}, {book 2, qty 3}]` with stock 5 the cart is non-empty
and every line is valid, references an existing book and fits the
pre-call stock, yet placement fails — with the generic stock-update
failure, an error outside the four. -/
theorem order_placement_error_taxonomy_cex :
    ((placeOrder dbC1 7 false [⟨99, 1⟩, ⟨2, 0⟩]).1 = .invalidItem ∧
      findBook dbC1.books 99 = none ∧
      (placeOrder dbC1 7 false [⟨99, 1⟩, ⟨2, 0⟩]).1 ≠ .bookNotFound 99) ∧
    ((placeOrder dbC1 7 false [⟨2, 3⟩, ⟨2, 3⟩]).1 = .stockUpdateFailed ∧
      stockOf dbC1.books 2 = some 5) := by
  decide

theorem isEmpty_false_of_ne {items : List CartLine} (h : items ≠ []) :
    items.isEmpty = false := by
  cases items with
  | nil => exact absurd rfl h
  | cons l ls => rfl

theorem placeOrder_of_firstCheckFailure (db : Db) (userId : Nat) (isStaff : Bool)
    {items : List CartLine} {e : PlaceResult} {rest : List CartLine}
    (hne : items ≠ []) (hval : items.any lineInvalid = false)
    (hff : firstCheckFailure db.books items = some (e, rest)) :
    (placeOrder db userId isStaff items).1 = e := by
  unfold placeOrder
  rw [isEmpty_false_of_ne hne, hval]
  simp only [Bool.false_eq_true, if_false, hff]

theorem placeOrder_of_txnFailure (db : Db) (userId : Nat) (isStaff : Bool)
    {items : List CartLine}
    (hne : items ≠ []) (hval : items.any lineInvalid = false)
    (hff : firstCheckFailure db.books items = none)
    (htxn : txnDecrements db.books items = none) :
    (placeOrder db userId isStaff items).1 = .stockUpdateFailed := by
  unfold placeOrder
  rw [isEmpty_false_of_ne hne, hval]
  simp only [Bool.false_eq_true, if_false, hff, htxn]

/-- Claim C6 (amended): placement classifies failures with these
precedences: the empty-cart check first; then the synchronous
invalid-line validation (any line with a falsy book reference or
non-positive quantity answers `invalid item`, even if another line's
book is missing); then the first line whose lookup fails answers
`item not found` (book absent) or `insufficient stock` (carrying the
book's title and its pre-call stock); and when every line passes its
check individually but the combined in-transaction decrements violate
the non-negative-stock constraint, the call fails with the generic
stock-update error.  On a state whose book prices are non-negative no
other failure mode exists. -/
theorem order_placement_error_classification (db : Db) (userId : Nat) (isStaff : Bool)
    (items : List CartLine) :
    ((placeOrder db userId isStaff items).1 = .emptyCart ↔ items = []) ∧
    (items ≠ [] → (∃ l ∈ items, lineInvalid l = true) →
      (placeOrder db userId isStaff items).1 = .invalidItem) ∧
    (∀ pre l post, items = pre ++ l :: post →
      (∀ l2 ∈ items, lineInvalid l2 = false) →
      (∀ l2 ∈ pre, checkLine db.books l2 = .passed) →
      ((findBook db.books l.book_id = none →
          (placeOrder db userId isStaff items).1 = .bookNotFound l.book_id) ∧
       (∀ b, findBook db.books l.book_id = some b → b.stock_quantity < l.quantity →
          (placeOrder db userId isStaff items).1 =
            .insufficientStock b.title b.stock_quantity))) ∧
    ((∀ l2 ∈ items, lineInvalid l2 = false) →
      (∀ l2 ∈ items, checkLine db.books l2 = .passed) →
      txnDecrements db.books items = none → items ≠ [] →
      (placeOrder db userId isStaff items).1 = .stockUpdateFailed) ∧
    ((∀ b ∈ db.books, 0 ≤ b.price) →
      (placeOrder db userId isStaff items).1 ≠ .orderInsertFailed ∧
      (placeOrder db userId isStaff items).1 ≠ .itemInsertFailed) := by
  refine ⟨⟨?_, ?_⟩, ?_, ?_, ?_, ?_⟩
  · -- emptyCart only on the empty cart
    intro hr
    by_cases hemp : items = []
    · exact hemp
    · exfalso
      unfold placeOrder at hr
      rw [isEmpty_false_of_ne hemp] at hr
      simp only [Bool.false_eq_true, if_false] at hr
      split at hr
      · simp at hr
      · split at hr
        · next e rest heq =>
          rcases firstCheckFailure_shape heq with ⟨i, rfl⟩ | ⟨t, a, rfl⟩ <;> simp at hr
        · split at hr
          · simp at hr
          · split at hr
            · simp at hr
            · split at hr
              · simp at hr
              · simp at hr
  · intro h
    subst h
    rfl
  · -- a first invalid line answers the invalid-item 400
    intro hne hinv
    have hany : items.any lineInvalid = true := List.any_eq_true.mpr hinv
    unfold placeOrder
    rw [isEmpty_false_of_ne hne, hany]
    simp only [Bool.false_eq_true, if_false, if_true]
  · -- the first failing lookup determines its not-found / short error
    intro pre l post hsplit hval hpre
    have hne : items ≠ [] := by
      rw [hsplit]
      exact List.append_ne_nil_of_right_ne_nil pre (by simp)
    have hvalany : items.any lineInvalid = false := by
      rw [List.any_eq_false]
      intro l2 hl2
      simp [hval l2 hl2]
    constructor
    · intro hnf
      have hchk : checkLine db.books l = .missing := by
        unfold checkLine
        rw [hnf]
      have hff : firstCheckFailure db.books items = some (.bookNotFound l.book_id, post) := by
        rw [hsplit, firstCheckFailure_append hpre]
        unfold firstCheckFailure
        rw [hchk]
      exact placeOrder_of_firstCheckFailure db userId isStaff hne hvalany hff
    · intro b hfb hshort
      have hchk : checkLine db.books l = .short b.title b.stock_quantity := by
        unfold checkLine
        simp only [hfb]
        rw [if_pos hshort]
      have hff : firstCheckFailure db.books items =
          some (.insufficientStock b.title b.stock_quantity, post) := by
        rw [hsplit, firstCheckFailure_append hpre]
        unfold firstCheckFailure
        rw [hchk]
      exact placeOrder_of_firstCheckFailure db userId isStaff hne hvalany hff
  · -- an overdrawing in-transaction decrement yields the generic 500
    intro hval hpass htxn hne
    have hvalany : items.any lineInvalid = false := by
      rw [List.any_eq_false]
      intro l2 hl2
      simp [hval l2 hl2]
    exact placeOrder_of_txnFailure db userId isStaff hne hvalany
      (firstCheckFailure_of_passed hpass) htxn
  · -- the insert steps cannot fail when prices are non-negative
    intro hp
    have key : ¬((placeOrder db userId isStaff items).1 = .orderInsertFailed ∨
        (placeOrder db userId isStaff items).1 = .itemInsertFailed) := by
      intro hcon
      unfold placeOrder at hcon
      split at hcon
      · simp at hcon
      · next hinv =>
        split at hcon
        · simp at hcon
        · next hnotinv =>
          have hq : ∀ l ∈ items, 0 < l.quantity := by
            intro l hl
            have hfalse : lineInvalid l = false := by
              rcases Bool.eq_false_or_eq_true (lineInvalid l) with h0 | h0
              · exact absurd (List.any_eq_true.mpr ⟨l, hl, h0⟩) hnotinv
              · exact h0
            simp only [lineInvalid, Bool.or_eq_false_iff, decide_eq_false_iff_not] at hfalse
            omega
          split at hcon
          · next e rest heq =>
            rcases firstCheckFailure_shape heq with ⟨i, rfl⟩ | ⟨t, a, rfl⟩ <;> simp at hcon
          · split at hcon
            · simp at hcon
            · dsimp only at hcon
              split at hcon
              · next htot =>
                have := orderTotal_nonneg hp fun l hl => le_of_lt (hq l hl)
                simp only at hcon
                exact absurd htot (not_lt.mpr this)
              · split at hcon
                · next hany =>
                  rw [List.any_eq_true] at hany
                  obtain ⟨it, hit, hbad⟩ := hany
                  unfold snapshotItems at hit
                  rw [List.mem_map] at hit
                  obtain ⟨l, hl, rfl⟩ := hit
                  simp only [Bool.or_eq_true, decide_eq_true_eq] at hbad
                  rcases hbad with hbad | hbad
                  · exact absurd hbad (not_le.mpr (hq l hl))
                  · exact absurd hbad (not_lt.mpr (priceOf_nonneg hp l.book_id))
                · simp at hcon
    exact ⟨fun h => key (Or.inl h), fun h => key (Or.inr h)⟩

/-- Witness for C6 (amended): the empty cart answers the empty-cart
error. -/
theorem order_placement_error_classification_witness :
    (placeOrder dbC1 7 false []).1 = .emptyCart :=
  (order_placement_error_classification dbC1 7 false []).1.mpr rfl

end LibroBuddy
